import Mathlib

/-!
Shallow embedding of `brdgme/fuzz` (`src/lib.rs`), a stress-testing harness
that drives a turn-based game backend with random commands.

Modelling conventions:
* The backend client (`requester::Requester`) is external and stateful; each
  call through it is modelled by an oracle `request : Request → Except String
  Response` supplied in an `Env` record, one `Env` per Fuzzer iteration.
  `Except.error` models a failed call (the `?` operator in Rust).
* The RNG (`rand::ThreadRng`): `rng.choose(&v)` returns `none` on an empty
  slice and some element otherwise; it is modelled by an index `pick` in the
  `Env`, used as `v[pick % v.length]`.
* The command grammar synthesizer (`brdgme_rand_bot::spec_to_command` joined
  by `rand_command`) is external; it is modelled by `synth` in the `Env`.
* Rust `panic!`/`unwrap` is modelled as `Except.error`, and `{:?}` debug
  formatting of values is abbreviated by small formatting helpers.
-/

/-- Opaque grammar description (`brdgme_game::command::Spec`), passed through
unmodified between the backend client and the synthesizer. -/
structure CommandSpec where
  id : Nat
deriving DecidableEq, Repr

/-- Status of a game (`brdgme_game::Status`): a game is active (with the set of players whose
turn it is) or finished.  Extra fields of the Rust enum that `lib.rs` never
reads are omitted. -/
inductive Status where
  | active (whose_turn : List Nat)
  | finished
deriving DecidableEq, Repr

/-- Game response (`brdgme_cmd::api::GameResponse`), restricted to the fields `lib.rs`
reads: the opaque serialized `state` and the `status`. -/
structure GameResponse where
  state : String
  status : Status
deriving DecidableEq, Repr

/-- Player render (`brdgme_cmd::api::PlayerRender`), restricted to the field `lib.rs`
reads: the optional `command_spec`. -/
structure PlayerRender where
  command_spec : Option CommandSpec
deriving DecidableEq, Repr

/-- Backend request (`brdgme_cmd::api::Request`): the three requests `lib.rs` issues. -/
inductive Request where
  | playerCounts
  | new (players : Nat)
  | play (command : String) (game : String) (names : List String) (player : Nat)
deriving DecidableEq, Repr

/-- Backend response (`brdgme_cmd::api::Response`): the response variants `lib.rs` matches on,
plus `other` standing for every remaining variant of the Rust enum (all of
which fall into the catch-all `bail!` arms). -/
inductive Response where
  | playerCounts (player_counts : List Nat)
  | new (game : GameResponse) (player_renders : List PlayerRender)
  | play (game : GameResponse) (player_renders : List PlayerRender)
      (remaining_input : String)
  | userError (message : String)
  | other (debug : String)
deriving DecidableEq, Repr

/-- Abbreviated `{:?}` rendering of a response, used in `bail!` messages. -/
def debugResponse : Response → String
  | .playerCounts _ => "PlayerCounts"
  | .new _ _ => "New"
  | .play _ _ _ => "Play"
  | .userError _ => "UserError"
  | .other d => d

/-- Abbreviated `{:?}` rendering of a list of numbers. -/
def fmtNatList (l : List Nat) : String :=
  "[" ++ String.intercalate ", " (l.map toString) ++ "]"

/-- The Session (`FuzzGame`): one game's serialized state plus per-player
renders, held by the Fuzzer in an `Option` slot. -/
structure FuzzGame where
  game : GameResponse
  player_renders : List PlayerRender
deriving DecidableEq, Repr

/-- Classification of one `play` exchange (`CommandResponse`). -/
inductive CommandResponse where
  | ok (game : FuzzGame)
  | userError (message : String)
deriving DecidableEq, Repr

/-- The outcome of one Fuzzer iteration (`FuzzStep`). -/
inductive FuzzStep where
  | created
  | commandOk
  | userError
  | finished
  | error (game : Option FuzzGame) (command : Option String) (error : String)
deriving DecidableEq, Repr

/-- The `Fuzzer` state (`lib.rs` lines 111-117).  The boxed client and the
RNG are externalized into `Env`; the remaining mutable state is kept. -/
structure Fuzzer where
  player_counts : List Nat
  names : List String
  game : Option FuzzGame
deriving DecidableEq, Repr

/-- The external collaborators consumed during one Fuzzer iteration: the
backend client oracle, the RNG draw, and the command synthesizer. -/
structure Env where
  request : Request → Except String Response
  pick : Nat
  synth : CommandSpec → List String → String

/-- Equality of `Except` results is decidable when both components are. -/
instance {ε α : Type} [DecidableEq ε] [DecidableEq α] : DecidableEq (Except ε α)
  | .ok a, .ok b =>
    if h : a = b then .isTrue (by rw [h])
    else .isFalse (by intro hh; cases hh; exact h rfl)
  | .ok _, .error _ => .isFalse (by intro h; cases h)
  | .error _, .ok _ => .isFalse (by intro h; cases h)
  | .error e, .error e' =>
    if h : e = e' then .isTrue (by rw [h])
    else .isFalse (by intro hh; cases hh; exact h rfl)

/-- Model of `rng.choose(&v)`: `none` on an empty slice, otherwise some element
(the `pick` index taken modulo the length). -/
def choose (l : List Nat) (pick : Nat) : Option Nat :=
  if h : l = [] then none
  else some (l.get ⟨pick % l.length, Nat.mod_lt _ (List.length_pos.mpr h)⟩)

/-- Model of `names(players)` (`lib.rs` line 258): synthetic names player0..playerN.
(Named `playerNames` here because `names` would collide with the `Fuzzer`
field accessor inside the `Fuzzer` namespace.) -/
def playerNames (players : Nat) : List String :=
  (List.range players).map (fun p => "player" ++ toString p)

/-- The Unicode code points with the White_Space property, the set removed
by Rust's `str::trim`. -/
def rustWhitespace : List Nat :=
  [0x09, 0x0A, 0x0B, 0x0C, 0x0D, 0x20, 0x85, 0xA0, 0x1680,
   0x2000, 0x2001, 0x2002, 0x2003, 0x2004, 0x2005, 0x2006, 0x2007,
   0x2008, 0x2009, 0x200A, 0x2028, 0x2029, 0x202F, 0x205F, 0x3000]

/-- Model of `char::is_whitespace` (the Unicode White_Space property). -/
def rustIsWhitespace (c : Char) : Bool :=
  rustWhitespace.contains c.toNat

/-- Model of `str::trim`: the characters remaining after stripping whitespace from
both ends. -/
def rustTrim (s : String) : List Char :=
  ((s.data.dropWhile rustIsWhitespace).reverse.dropWhile rustIsWhitespace).reverse

/-- Model of `rand_command` (`lib.rs` line 325): one synthesized command string; the
external grammar walk is the `synth` oracle. -/
def rand_command (synth : CommandSpec → List String → String)
    (command_spec : CommandSpec) (players : List String) : String :=
  synth command_spec players

/-- Model of `exec_command` (`lib.rs` lines 290-323): submit one command to the
backend and classify the response. -/
def exec_command (request : Request → Except String Response)
    (command : String) (game : String) (player : Nat) (names : List String) :
    Except String CommandResponse :=
  match request (.play command game names player) with
  | .error e => .error e
  | .ok (.play g player_renders remaining_input) =>
    if !(rustTrim remaining_input).isEmpty then
      .ok (.userError "did not parse all input")
    else
      .ok (.ok ⟨g, player_renders⟩)
  | .ok (.userError message) => .ok (.userError message)
  | .ok v => .error (debugResponse v)

/-- Model of `exec_rand_command` (`lib.rs` lines 273-288): synthesize a random
command and submit it. -/
def exec_rand_command (request : Request → Except String Response)
    (game : String) (player : Nat) (names : List String)
    (command_spec : CommandSpec) (synth : CommandSpec → List String → String) :
    Except String CommandResponse :=
  exec_command request (rand_command synth command_spec names) game player names

/-- Model of `Fuzzer::new_game` (`lib.rs` lines 134-154).  Returns the outcome and
the updated Fuzzer; note `self.names` is assigned before the request, so it
is mutated even when the request fails. -/
def Fuzzer.new_game (f : Fuzzer) (env : Env) : Except String Unit × Fuzzer :=
  match choose f.player_counts env.pick with
  | none =>
    (.error ("could not get player counts from " ++ fmtNatList f.player_counts), f)
  | some players =>
    let f' := { f with names := playerNames players }
    match env.request (.new players) with
    | .error e => (.error e, f')
    | .ok (.new game player_renders) =>
      (.ok (), { f' with game := some ⟨game, player_renders⟩ })
    | .ok v => (.error ("invalid response for new game: " ++ debugResponse v), f')

/-- Model of `Fuzzer::command` (`lib.rs` lines 156-203): pick an active player,
require their command spec, and run one random command.  Mutates nothing
in the Fuzzer itself. -/
def Fuzzer.command (f : Fuzzer) (env : Env) : Except String CommandResponse :=
  match f.game with
  | some ⟨⟨state, .active whose_turn⟩, player_renders⟩ =>
    match choose whose_turn env.pick with
    | none =>
      .error ("unable to pick active turn player from: " ++ fmtNatList whose_turn)
    | some player =>
      if h : player_renders.length ≤ player then
        .error ("there is no player_render for player " ++ toString player)
      else
        match (player_renders.get ⟨player, by omega⟩).command_spec with
        | none => .error ("player " ++ toString player ++ "\x27s command_spec is None")
        | some command_spec =>
          exec_rand_command env.request state player f.names command_spec env.synth
  | some ⟨⟨_, .finished⟩, _⟩ => .error "the game is already finished"
  | none => .error "there isn\x27t a game"

/-- Model of `<Fuzzer as Iterator>::next` (`lib.rs` lines 221-255), minus the
always-`Some` wrapper: one `advance()` producing one step and the next
Fuzzer state. -/
def Fuzzer.next (f : Fuzzer) (env : Env) : FuzzStep × Fuzzer :=
  match f.game with
  | some _ =>
    match f.command env with
    | .ok (.ok g) =>
      match g.game.status with
      | .finished => (.finished, { f with game := none })
      | .active _ => (.commandOk, { f with game := some g })
    | .ok (.userError _) => (.userError, f)
    | .error e => (.error f.game none e, f)
  | none =>
    match f.new_game env with
    | (.ok _, f') => (.created, f')
    | (.error e, f') => (.error none none e, f')

/-- The Orchestrator's counters, `FuzzTally` (`lib.rs` lines 94-100). -/
structure FuzzTally where
  started : Nat := 0
  finished : Nat := 0
  commands : Nat := 0
  invalid_input : Nat := 0
deriving DecidableEq, Repr

/-- The default tally, all counters zero (`FuzzTally::default()`). -/
def FuzzTally.init : FuzzTally := {}

/-- One tally update of the Orchestrator's `match` on a received step
(`lib.rs` lines 58-79); an `Error` step updates no counter. -/
def tallyStep (t : FuzzTally) : FuzzStep → FuzzTally
  | .created => { t with started := t.started + 1 }
  | .finished => { t with finished := t.finished + 1 }
  | .commandOk => { t with commands := t.commands + 1 }
  | .userError =>
    { t with commands := t.commands + 1, invalid_input := t.invalid_input + 1 }
  | .error _ _ _ => t

/-- The Orchestrator's consuming loop (`lib.rs` lines 49-80) over a finite
prefix of the step stream: update the tally per step kind and break on the
first `Error` step.  Returns the tally and whether the loop broke (the
periodic status printing is IO and not modelled).  An exhausted list means
the loop is still blocked on `recv`, so the flag is `false`. -/
def consume (t : FuzzTally) : List FuzzStep → FuzzTally × Bool
  | [] => (t, false)
  | step :: rest =>
    match step with
    | .error _ _ _ => (t, true)
    | s => consume (tallyStep t s) rest

/-- Number of `CommandOk` steps in a trace. -/
def okCount (steps : List FuzzStep) : Nat :=
  steps.countP (fun s => s = FuzzStep.commandOk)

/-- Number of `Created` steps in a trace. -/
def createdCount (steps : List FuzzStep) : Nat :=
  steps.countP (fun s => s = FuzzStep.created)

/-- Number of `Finished` steps in a trace. -/
def finishedCount (steps : List FuzzStep) : Nat :=
  steps.countP (fun s => s = FuzzStep.finished)

/-- Number of `UserError` steps in a trace. -/
def userErrorCount (steps : List FuzzStep) : Nat :=
  steps.countP (fun s => s = FuzzStep.userError)

/-- Whether a step is the fatal `Error` variant. -/
def FuzzStep.isErrorStep : FuzzStep → Bool
  | .error _ _ _ => true
  | _ => false

/-- The `command` field of a step (`Error` carries the attempted command;
every other variant carries none). -/
def FuzzStep.commandField : FuzzStep → Option String
  | .error _ c _ => c
  | _ => none

/-- The `game` (Session snapshot) field of a step. -/
def FuzzStep.gameField : FuzzStep → Option FuzzGame
  | .error g _ _ => g
  | _ => none

/-- Number of workers whose Session slot is occupied (an active game). -/
def activeCount (fs : List Fuzzer) : Nat :=
  fs.countP (fun f => f.game.isSome)

/-- Weight of one worker: 1 when its Session slot is occupied. -/
def activeWeight (f : Fuzzer) : Nat :=
  if f.game.isSome then 1 else 0

/-- A multi-worker run: each schedule entry names a worker and supplies the
external environment for that worker's next iteration; the steps arrive at
the Orchestrator in schedule order (the channel interleaving).  Entries
naming a nonexistent worker are skipped. -/
def multiRun (fs : List Fuzzer) : List (Nat × Env) → List FuzzStep × List Fuzzer
  | [] => ([], fs)
  | (i, env) :: rest =>
    match fs[i]? with
    | none => multiRun fs rest
    | some f =>
      let sf := f.next env
      let r := multiRun (fs.set i sf.2) rest
      (sf.1 :: r.1, r.2)

/-- One `tx.send(())` of the shutdown broadcast (`lib.rs` line 83): the
send fails when the worker's receiver has been dropped (the worker thread
exited), and `.unwrap()` turns that failure into a panic, modelled as
`Except.error`. -/
def sendStop (receiverAlive : Bool) : Except String Unit :=
  if receiverAlive then .ok () else .error "called Result::unwrap() on an Err value: SendError(())"

/-- The shutdown broadcast `for tx in exit_txs { tx.send(()).unwrap() }`
(`lib.rs` lines 82-84), over the list of per-worker receiver-alive flags;
a panic aborts the remaining sends. -/
def broadcastStop : List Bool → Except String Unit
  | [] => .ok ()
  | alive :: rest =>
    match sendStop alive with
    | .ok _ => broadcastStop rest
    | .error e => .error e

/-- Result of `Receiver::try_recv` on the per-worker stop channel. -/
inductive TryRecvResult where
  | ok
  | empty
  | disconnected
deriving DecidableEq, Repr

/-- The one-shot stop channel polled by a worker: the signal is visible from
the moment `signalAt` it was sent; the sender (`exit_tx`) is held by the
Orchestrator for the whole run, so the channel is never disconnected. -/
def stopChannel (signalAt clock : Nat) : TryRecvResult :=
  if signalAt ≤ clock then .ok else .empty

/-- The worker loop (`lib.rs` lines 33-41), abstracted to its event timing:
each iteration emits one step (at the current clock) and then polls the stop
channel (one tick later); `Ok` and `Disconnected` break the loop, `Empty`
continues.  Returns the total number of steps emitted and the number
emitted at or after `signalAt` (i.e. after the stop signal was sent),
within the given fuel. -/
def workerLoop (signalAt : Nat) : Nat → Nat → Nat × Nat
  | 0, _ => (0, 0)
  | fuel + 1, clock =>
    let late := if signalAt ≤ clock then 1 else 0
    match stopChannel signalAt (clock + 1) with
    | .ok => (1, late)
    | .disconnected => (1, late)
    | .empty =>
      let r := workerLoop signalAt fuel (clock + 2)
      (r.1 + 1, late + r.2)

/-- A sample grammar spec used in concrete evaluations. -/
def demoSpec : CommandSpec := ⟨0⟩

/-- A sample active Session: player 0 to move, with a present command spec. -/
def demoGameActive : FuzzGame := ⟨⟨"st", .active [0]⟩, [⟨some demoSpec⟩]⟩

/-- The (still active) Session returned by the demo backend's play call. -/
def demoGame2 : FuzzGame := ⟨⟨"st2", .active [0]⟩, [⟨some demoSpec⟩]⟩

/-- A finished Session as returned by a final play call. -/
def demoGameFinished : FuzzGame := ⟨⟨"st3", .finished⟩, [⟨none⟩]⟩

/-- A synthesizer oracle that always produces the same command. -/
def demoSynth : CommandSpec → List String → String := fun _ _ => "cmd"

/-- A backend oracle that answers every request successfully, with no
remaining input on play. -/
def demoRequestOk : Request → Except String Response := fun r =>
  match r with
  | .playerCounts => .ok (.playerCounts [2])
  | .new _ => .ok (.new demoGameActive.game demoGameActive.player_renders)
  | .play _ _ _ _ => .ok (.play demoGame2.game demoGame2.player_renders "")

/-- A backend oracle whose play call fails at the transport level. -/
def demoRequestPlayFail : Request → Except String Response := fun r =>
  match r with
  | .playerCounts => .ok (.playerCounts [2])
  | .new _ => .ok (.new demoGameActive.game demoGameActive.player_renders)
  | .play _ _ _ _ => .error "boom"

/-- A backend oracle whose play call reports an explicit user error. -/
def demoRequestRejected : Request → Except String Response := fun r =>
  match r with
  | .playerCounts => .ok (.playerCounts [2])
  | .new _ => .ok (.new demoGameActive.game demoGameActive.player_renders)
  | .play _ _ _ _ => .ok (.userError "invalid input")

/-- A backend oracle whose play call leaves unparsed trailing input. -/
def demoRequestIncomplete : Request → Except String Response := fun r =>
  match r with
  | .playerCounts => .ok (.playerCounts [2])
  | .new _ => .ok (.new demoGameActive.game demoGameActive.player_renders)
  | .play _ _ _ _ => .ok (.play demoGame2.game demoGame2.player_renders "xtra")

/-- A backend oracle whose play call leaves only whitespace unparsed. -/
def demoRequestWhitespace : Request → Except String Response := fun r =>
  match r with
  | .playerCounts => .ok (.playerCounts [2])
  | .new _ => .ok (.new demoGameActive.game demoGameActive.player_renders)
  | .play _ _ _ _ => .ok (.play demoGame2.game demoGame2.player_renders " \t ")

/-- A backend oracle whose play call ends the game. -/
def demoRequestFinish : Request → Except String Response := fun r =>
  match r with
  | .playerCounts => .ok (.playerCounts [2])
  | .new _ => .ok (.new demoGameActive.game demoGameActive.player_renders)
  | .play _ _ _ _ => .ok (.play demoGameFinished.game demoGameFinished.player_renders "")

/-- Environments packaging the demo oracles with RNG draw 0. -/
def demoEnv : Env := ⟨demoRequestOk, 0, demoSynth⟩

/-- Environment whose play call fails at the transport level. -/
def demoEnvPlayFail : Env := ⟨demoRequestPlayFail, 0, demoSynth⟩

/-- Environment whose play call reports an explicit user error. -/
def demoEnvRejected : Env := ⟨demoRequestRejected, 0, demoSynth⟩

/-- Environment whose play call leaves unparsed trailing input. -/
def demoEnvIncomplete : Env := ⟨demoRequestIncomplete, 0, demoSynth⟩

/-- Environment whose play call leaves only whitespace unparsed. -/
def demoEnvWhitespace : Env := ⟨demoRequestWhitespace, 0, demoSynth⟩

/-- Environment whose play call ends the game. -/
def demoEnvFinish : Env := ⟨demoRequestFinish, 0, demoSynth⟩

/-- A freshly constructed Fuzzer: allowed player counts, no game yet. -/
def demoFuzzerNoGame : Fuzzer := ⟨[2], [], none⟩

/-- A Fuzzer holding an active Session. -/
def demoFuzzerActive : Fuzzer := ⟨[2], ["player0", "player1"], some demoGameActive⟩

/-- A Fuzzer whose allowed player-count set is empty. -/
def demoFuzzerEmptyCounts : Fuzzer := ⟨[], [], none⟩

/-- A single-worker schedule: two iterations of worker 0. -/
def demoSched1 : List (Nat × Env) := [(0, demoEnv), (0, demoEnv)]

/-- A two-worker schedule: one iteration of each worker. -/
def demoSched2 : List (Nat × Env) := [(0, demoEnv), (1, demoEnv)]

/-- C6: the Orchestrator's consuming loop updates the tally per received
step kind — `Created` increments `started`, `Finished` increments
`finished`, `CommandOk` increments `commands`, `UserError` increments both
`commands` and `invalid_input`, `Error` updates no counter — and the loop
exits exactly via the `Error` branch, never on any other step kind. -/
theorem claim6_consume_loop :
    (∀ t rest, consume t (FuzzStep.created :: rest)
      = consume { t with started := t.started + 1 } rest) ∧
    (∀ t rest, consume t (FuzzStep.finished :: rest)
      = consume { t with finished := t.finished + 1 } rest) ∧
    (∀ t rest, consume t (FuzzStep.commandOk :: rest)
      = consume { t with commands := t.commands + 1 } rest) ∧
    (∀ t rest, consume t (FuzzStep.userError :: rest)
      = consume { t with commands := t.commands + 1,
                         invalid_input := t.invalid_input + 1 } rest) ∧
    (∀ t rest g c e, consume t (FuzzStep.error g c e :: rest) = (t, true)) ∧
    (∀ t steps, (consume t steps).2 = steps.any (fun s => s.isErrorStep)) := by
  refine ⟨fun t rest => rfl, fun t rest => rfl, fun t rest => rfl,
    fun t rest => rfl, fun t rest g c e => rfl, fun t steps => ?_⟩
  induction steps generalizing t with
  | nil => simp [consume]
  | cons s rest ih =>
    cases s <;> simp [consume, FuzzStep.isErrorStep, ih]

/-- C7 counterexample: broadcasting the stop signal to a single worker
whose stop-signal receiver is already gone does not complete cleanly — the
`unwrap` on the failed send panics the Orchestrator. -/
theorem claim7_counterexample : broadcastStop [false] ≠ Except.ok () := by
  simp [broadcastStop, sendStop]

/-- C7 (amended): after the consuming loop breaks, the Orchestrator sends
the stop signal to every Worker in order, but the broadcast is not
best-effort: it completes without panicking exactly when every Worker's
stop-signal receiver is still alive; a Worker that has already exited makes
the `unwrap` on that send panic (skipping the remaining sends). -/
theorem claim7_amended_broadcast (alive : List Bool) :
    broadcastStop alive = Except.ok () ↔ ∀ a ∈ alive, a = true := by
  induction alive with
  | nil => simp [broadcastStop]
  | cons a rest ih =>
    cases a <;> simp [broadcastStop, sendStop, ih]

/-- C9: in the worker loop (advance the Fuzzer, send the step, then
non-blockingly poll the stop signal, exiting on signal-present or
channel-closed), once the stop signal has been sent, the worker emits at
most one further step before exiting. -/
theorem claim9_stop_liveness (signalAt fuel clock : Nat) :
    (workerLoop signalAt fuel clock).2 ≤ 1 := by
  induction fuel generalizing clock with
  | zero => simp [workerLoop]
  | succ n ih =>
    simp only [workerLoop, stopChannel]
    by_cases h1 : signalAt ≤ clock + 1
    · by_cases h0 : signalAt ≤ clock <;> simp [h0, h1]
    · have h0 : ¬ signalAt ≤ clock := by omega
      simp only [h0, h1, if_false]
      simpa using ih (clock + 2)

/-- Dropping the longest satisfying prefix does not change whether every
element satisfies the predicate. -/
theorem dropWhile_all_iff (p : Char → Bool) (l : List Char) :
    (∀ x ∈ l.dropWhile p, p x = true) ↔ (∀ x ∈ l, p x = true) := by
  induction l with
  | nil => simp
  | cons a l ih =>
    by_cases h : p a = true
    · simp [List.dropWhile_cons, h, ih]
    · simp [List.dropWhile_cons, h]

/-- Trimming yields the empty string exactly when every character of the
input is whitespace. -/
theorem rustTrim_isEmpty_iff (s : String) :
    (rustTrim s).isEmpty = true ↔ ∀ c ∈ s.data, rustIsWhitespace c = true := by
  unfold rustTrim
  rw [List.isEmpty_iff, List.reverse_eq_nil_iff, List.dropWhile_eq_nil_iff]
  simp only [List.mem_reverse]
  exact dropWhile_all_iff _ _

/-- A string with at least one non-whitespace character does not trim to
the empty string. -/
theorem rustTrim_not_empty (s : String) (h : ∃ c ∈ s.data, rustIsWhitespace c = false) :
    (rustTrim s).isEmpty = false := by
  rcases h with ⟨c, hc, hw⟩
  cases he : (rustTrim s).isEmpty with
  | false => rfl
  | true =>
    have := (rustTrim_isEmpty_iff s).mp he c hc
    rw [this] at hw
    exact absurd hw (by simp)

/-- With no game in the slot, `Fuzzer::command` bails immediately. -/
theorem Fuzzer.command_of_none (f : Fuzzer) (env : Env) (h : f.game = none) :
    f.command env = .error "there isn\x27t a game" := by
  simp [Fuzzer.command, h]

/-- C1: the Fuzzer holds at most one Session (a single `Option` slot); with
an active Session the slot becomes `none` exactly when the step is
`Finished` and a `Created` step is never produced; with no Session the
`advance()` attempts `new_game` and emits `Created` or `Error` (with no
session snapshot), never re-reading a finished Session. -/
theorem claim1_single_session_lifecycle (f : Fuzzer) (env : Env) :
    (f.game.isSome = true →
      (((f.next env).2.game = none ↔ (f.next env).1 = .finished) ∧
        (f.next env).1 ≠ .created)) ∧
    (f.game = none →
      (f.next env).1 = .created ∨ ∃ e, (f.next env).1 = .error none none e) := by
  constructor
  · intro hs
    rcases hg : f.game with _ | g0
    · rw [hg] at hs; simp at hs
    · cases hc : f.command env with
      | error e => simp [Fuzzer.next, hg, hc]
      | ok cr =>
        cases cr with
        | userError m => simp [Fuzzer.next, hg, hc]
        | ok g =>
          cases hst : g.game.status with
          | finished => simp [Fuzzer.next, hg, hc, hst]
          | active wt => simp [Fuzzer.next, hg, hc, hst]
  · intro hn
    rcases hng : f.new_game env with ⟨res, f'⟩
    cases res with
    | ok u => left; simp [Fuzzer.next, hn, hng]
    | error e => right; exact ⟨e, by simp [Fuzzer.next, hn, hng]⟩

/-- C1 witness: concrete active Fuzzer and environment. -/
theorem claim1_witness :
    demoFuzzerActive.game.isSome = true ∧
    (((demoFuzzerActive.next demoEnv).2.game = none ↔
        (demoFuzzerActive.next demoEnv).1 = .finished) ∧
      (demoFuzzerActive.next demoEnv).1 ≠ .created) :=
  ⟨by decide, (claim1_single_session_lifecycle demoFuzzerActive demoEnv).1 (by decide)⟩

/-- C2: when an `advance()` with an active Session gets an applied outcome
from the play call, a returned Session with status `Finished` yields a
`Finished` step and clears the slot, and any other returned Session
replaces the slot and yields `CommandOk`. -/
theorem claim2_applied_outcome (f : Fuzzer) (env : Env) (g : FuzzGame)
    (h : f.command env = .ok (.ok g)) :
    (g.game.status = .finished →
      f.next env = (.finished, { f with game := none })) ∧
    (g.game.status ≠ .finished →
      f.next env = (.commandOk, { f with game := some g })) := by
  rcases hg : f.game with _ | g0
  · rw [Fuzzer.command_of_none f env hg] at h
    exact absurd h (by simp)
  · constructor
    · intro hst
      simp [Fuzzer.next, hg, h, hst]
    · intro hst
      cases hact : g.game.status with
      | active wt => simp [Fuzzer.next, hg, h, hact]
      | finished => exact absurd hact hst

/-- C2 witness: the demo backend applies the command and returns an active
Session, so the step is `CommandOk` and the Session is replaced. -/
theorem claim2_witness :
    (demoFuzzerActive.command demoEnv = .ok (.ok demoGame2) ∧
      demoGame2.game.status ≠ .finished) ∧
    demoFuzzerActive.next demoEnv
      = (.commandOk, { demoFuzzerActive with game := some demoGame2 }) :=
  ⟨⟨by decide, by decide⟩,
    (claim2_applied_outcome demoFuzzerActive demoEnv demoGame2 (by decide)).2 (by decide)⟩

/-- C3: a play response with non-whitespace trailing input (Incomplete) or
an explicit user-error response (Rejected) is classified as a user error,
and the Fuzzer then emits a `UserError` step — never `Error` — leaving the
Fuzzer (and hence the stored Session) unchanged. -/
theorem claim3_user_error_classification
    (f : Fuzzer) (env : Env) (cmd gs m rem : String) (player : Nat)
    (nm : List String) (g : GameResponse) (pr : List PlayerRender) :
    (env.request (.play cmd gs nm player) = .ok (.play g pr rem) →
      (∃ c ∈ rem.data, rustIsWhitespace c = false) →
      exec_command env.request cmd gs player nm
        = .ok (.userError "did not parse all input")) ∧
    (env.request (.play cmd gs nm player) = .ok (.userError m) →
      exec_command env.request cmd gs player nm = .ok (.userError m)) ∧
    (∀ msg, f.command env = .ok (.userError msg) → f.next env = (.userError, f)) := by
  refine ⟨fun hresp hex => ?_, fun hresp => ?_, fun msg hcmd => ?_⟩
  · simp [exec_command, hresp, rustTrim_not_empty rem hex]
  · simp [exec_command, hresp]
  · rcases hg : f.game with _ | g0
    · rw [Fuzzer.command_of_none f env hg] at hcmd
      exact absurd hcmd (by simp)
    · simp [Fuzzer.next, hg, hcmd]

/-- C3 witness: a play call with leftover text `"xtra"` yields the
incomplete classification and a `UserError` step with the Session intact. -/
theorem claim3_witness :
    (demoEnvIncomplete.request (.play "cmd" "st" ["player0"] 0)
        = .ok (.play demoGame2.game demoGame2.player_renders "xtra") ∧
      (∃ c ∈ "xtra".data, rustIsWhitespace c = false) ∧
      demoFuzzerActive.command demoEnvIncomplete = .ok (.userError "did not parse all input")) ∧
    exec_command demoEnvIncomplete.request "cmd" "st" 0 ["player0"]
      = .ok (.userError "did not parse all input") ∧
    demoFuzzerActive.next demoEnvIncomplete = (.userError, demoFuzzerActive) :=
  ⟨⟨by decide, by decide, by decide⟩,
    (claim3_user_error_classification demoFuzzerActive demoEnvIncomplete
      "cmd" "st" "m" "xtra" 0 ["player0"] demoGame2.game demoGame2.player_renders).1
      (by decide) (by decide),
    (claim3_user_error_classification demoFuzzerActive demoEnvIncomplete
      "cmd" "st" "m" "xtra" 0 ["player0"] demoGame2.game demoGame2.player_renders).2.2
      "did not parse all input" (by decide)⟩

/-- C4 counterexample: an active-Session iteration whose play call fails at
the transport level after a command was synthesized (the synthesizer
produced `"cmd"`) emits an `Error` step whose `command` field is `none` —
the attempted command is never recorded, contradicting the claim. -/
theorem claim4_counterexample :
    rand_command demoEnvPlayFail.synth demoSpec demoFuzzerActive.names = "cmd" ∧
    (demoFuzzerActive.next demoEnvPlayFail).1
      = .error (some demoGameActive) none "boom" ∧
    (demoFuzzerActive.next demoEnvPlayFail).1.commandField = none := by decide

/-- C4 (amended): every per-iteration failure is caught and converted into
an `Error` step — with the current Session snapshot in the `game` field
when the failure occurs during a command iteration — but the `command`
field of the `Error` step is always `none`; the attempted command string is
never recorded. -/
theorem claim4_amended_error_step (f : Fuzzer) (env : Env) (e : String) :
    (f.game.isSome = true → f.command env = .error e →
      f.next env = (.error f.game none e, f)) ∧
    (f.game = none → (f.new_game env).1 = .error e →
      (f.next env).1 = .error none none e) ∧
    (∀ g c m, (f.next env).1 = .error g c m → c = none) := by
  refine ⟨fun hs hc => ?_, fun hn he => ?_, fun g c m h => ?_⟩
  · rcases hg : f.game with _ | g0
    · rw [hg] at hs; simp at hs
    · simp [Fuzzer.next, hg, hc]
  · rcases hng : f.new_game env with ⟨res, f'⟩
    rw [hng] at he
    simp only at he
    cases res with
    | ok u => exact absurd he (by simp)
    | error e0 =>
      cases he
      simp [Fuzzer.next, hn, hng]
  · rcases hg : f.game with _ | g0
    · rcases hng : f.new_game env with ⟨res, f'⟩
      cases res with
      | ok u => rw [show (f.next env).1 = .created by simp [Fuzzer.next, hg, hng]] at h; cases h
      | error e0 =>
        rw [show (f.next env).1 = .error none none e0 by simp [Fuzzer.next, hg, hng]] at h
        cases h; rfl
    · cases hc : f.command env with
      | error e0 =>
        rw [show (f.next env).1 = .error f.game none e0 by simp [Fuzzer.next, hg, hc]] at h
        cases h; rfl
      | ok cr =>
        cases cr with
        | userError m0 =>
          rw [show (f.next env).1 = .userError by simp [Fuzzer.next, hg, hc]] at h; cases h
        | ok g0 =>
          cases hst : g0.game.status with
          | finished =>
            rw [show (f.next env).1 = .finished by simp [Fuzzer.next, hg, hc, hst]] at h
            cases h
          | active wt =>
            rw [show (f.next env).1 = .commandOk by simp [Fuzzer.next, hg, hc, hst]] at h
            cases h

/-- C4 witness: the transport failure `"boom"` during a command iteration
is surfaced as an `Error` step carrying the Session snapshot. -/
theorem claim4_witness :
    (demoFuzzerActive.game.isSome = true ∧
      demoFuzzerActive.command demoEnvPlayFail = .error "boom") ∧
    demoFuzzerActive.next demoEnvPlayFail
      = (.error demoFuzzerActive.game none "boom", demoFuzzerActive) :=
  ⟨⟨by decide, by decide⟩,
    (claim4_amended_error_step demoFuzzerActive demoEnvPlayFail "boom").1
      (by decide) (by decide)⟩

/-- C8: each selection/consistency precondition failure during `advance()`
— empty allowed player-count set, empty whose-turn set of the active
Session, or a missing command spec for the selected player — produces an
`Error` step whose value does not consult the backend's play operation, and
leaves the Fuzzer (hence the stored Session) unchanged. -/
theorem claim8_precondition_failures (f : Fuzzer) (env : Env) :
    (f.game = none → f.player_counts = [] →
      f.next env = (.error none none
        ("could not get player counts from " ++ fmtNatList f.player_counts), f)) ∧
    (∀ st pr, f.game = some ⟨⟨st, .active []⟩, pr⟩ →
      f.next env = (.error f.game none
        ("unable to pick active turn player from: " ++ fmtNatList []), f)) ∧
    (∀ st wt pr p (hp : p < pr.length),
      f.game = some ⟨⟨st, .active wt⟩, pr⟩ →
      choose wt env.pick = some p →
      pr[p].command_spec = none →
      f.next env = (.error f.game none
        ("player " ++ toString p ++ "\x27s command_spec is None"), f)) := by
  refine ⟨fun hn hpc => ?_, fun st pr hg => ?_, fun st wt pr p hp hg hcp hsp => ?_⟩
  · simp [Fuzzer.next, hn, Fuzzer.new_game, hpc, choose]
  · simp [Fuzzer.next, hg, Fuzzer.command, choose]
  · have hnle : ¬ pr.length ≤ p := by omega
    simp [Fuzzer.next, hg, Fuzzer.command, hcp, hnle, hsp]

/-- C8 witness: an empty allowed player-count set makes `advance()` emit an
`Error` step with no session and no command. -/
theorem claim8_witness :
    (demoFuzzerEmptyCounts.game = none ∧ demoFuzzerEmptyCounts.player_counts = []) ∧
    demoFuzzerEmptyCounts.next demoEnv
      = (.error none none
          ("could not get player counts from "
            ++ fmtNatList demoFuzzerEmptyCounts.player_counts),
        demoFuzzerEmptyCounts) :=
  ⟨⟨by decide, by decide⟩,
    (claim8_precondition_failures demoFuzzerEmptyCounts demoEnv).1 (by decide) (by decide)⟩

/-- C10: a play response whose remaining input is all whitespace is
classified as fully applied (and an applied outcome yields a `CommandOk` or
`Finished` step), while remaining input containing a non-whitespace
character yields the user-error classification with message
"did not parse all input". -/
theorem claim10_whitespace_remaining
    (request : Request → Except String Response) (cmd gs : String)
    (player : Nat) (nm : List String) (g : GameResponse)
    (pr : List PlayerRender) (rem : String)
    (hresp : request (.play cmd gs nm player) = .ok (.play g pr rem)) :
    ((∀ c ∈ rem.data, rustIsWhitespace c = true) →
      exec_command request cmd gs player nm = .ok (.ok ⟨g, pr⟩)) ∧
    ((∃ c ∈ rem.data, rustIsWhitespace c = false) →
      exec_command request cmd gs player nm
        = .ok (.userError "did not parse all input")) ∧
    (∀ (f : Fuzzer) (env : Env) (g' : FuzzGame), f.command env = .ok (.ok g') →
      (f.next env).1 = .commandOk ∨ (f.next env).1 = .finished) := by
  refine ⟨fun hall => ?_, fun hex => ?_, fun f env g' hcmd => ?_⟩
  · have : (rustTrim rem).isEmpty = true := (rustTrim_isEmpty_iff rem).mpr hall
    simp [exec_command, hresp, this]
  · simp [exec_command, hresp, rustTrim_not_empty rem hex]
  · rcases hg : f.game with _ | g0
    · rw [Fuzzer.command_of_none f env hg] at hcmd
      exact absurd hcmd (by simp)
    · cases hst : g'.game.status with
      | finished => right; simp [Fuzzer.next, hg, hcmd, hst]
      | active wt => left; simp [Fuzzer.next, hg, hcmd, hst]

/-- C10 witness: remaining input `" \t "` (whitespace only) is treated as
fully applied. -/
theorem claim10_witness :
    (demoEnvWhitespace.request (.play "cmd" "st" ["player0"] 0)
        = .ok (.play demoGame2.game demoGame2.player_renders " \t ") ∧
      (∀ c ∈ " \t ".data, rustIsWhitespace c = true)) ∧
    exec_command demoEnvWhitespace.request "cmd" "st" 0 ["player0"]
      = .ok (.ok ⟨demoGame2.game, demoGame2.player_renders⟩) :=
  ⟨⟨by decide, by decide⟩,
    (claim10_whitespace_remaining demoEnvWhitespace.request "cmd" "st" 0 ["player0"]
      demoGame2.game demoGame2.player_renders " \t " (by decide)).1 (by decide)⟩

/-- A successful `new_game` leaves the Session slot occupied. -/
theorem Fuzzer.new_game_ok_game (f : Fuzzer) (env : Env) (u : Unit) (f' : Fuzzer)
    (h : f.new_game env = (.ok u, f')) : f'.game.isSome = true := by
  unfold Fuzzer.new_game at h
  cases hc : choose f.player_counts env.pick with
  | none => rw [hc] at h; simp at h
  | some players =>
    rw [hc] at h
    simp only at h
    cases hr : env.request (.new players) with
    | error e => rw [hr] at h; simp at h
    | ok v =>
      rw [hr] at h
      cases v with
      | new game pr =>
        simp only [Prod.mk.injEq] at h
        rw [← h.2]
        simp
      | playerCounts l => simp at h
      | play g pr rem => simp at h
      | userError m => simp at h
      | other d => simp at h

/-- A failed `new_game` leaves the Session slot as it was. -/
theorem Fuzzer.new_game_err_game (f : Fuzzer) (env : Env) (e : String) (f' : Fuzzer)
    (h : f.new_game env = (.error e, f')) : f'.game = f.game := by
  unfold Fuzzer.new_game at h
  cases hc : choose f.player_counts env.pick with
  | none => rw [hc] at h; simp at h; rw [← h.2]
  | some players =>
    rw [hc] at h
    simp only at h
    cases hr : env.request (.new players) with
    | error e0 => rw [hr] at h; simp at h; rw [← h.2]
    | ok v =>
      rw [hr] at h
      cases v with
      | new game pr => simp at h
      | playerCounts l => simp at h; rw [← h.2]
      | play g pr rem => simp at h; rw [← h.2]
      | userError m => simp at h; rw [← h.2]
      | other d => simp at h; rw [← h.2]

/-- One `advance()` and the Session slot: a `Created` step fills an empty
slot, a `Finished` step empties a full one, and every other step kind
leaves the slot's occupancy unchanged. -/
theorem next_step_occupancy (f : Fuzzer) (env : Env) :
    ((f.next env).1 = .created ∧ activeWeight f = 0 ∧ activeWeight (f.next env).2 = 1) ∨
    ((f.next env).1 = .finished ∧ activeWeight f = 1 ∧ activeWeight (f.next env).2 = 0) ∨
    (((f.next env).1 = .commandOk ∨ (f.next env).1 = .userError ∨
        ∃ g c e, (f.next env).1 = .error g c e) ∧
      activeWeight (f.next env).2 = activeWeight f) := by
  rcases hg : f.game with _ | g0
  · rcases hng : f.new_game env with ⟨res, f'⟩
    cases res with
    | ok u =>
      left
      have hsome := Fuzzer.new_game_ok_game f env u f' hng
      simp [Fuzzer.next, hg, hng, activeWeight, hsome]
    | error e =>
      right; right
      have hsame := Fuzzer.new_game_err_game f env e f' hng
      constructor
      · right; right
        exact ⟨none, none, e, by simp [Fuzzer.next, hg, hng]⟩
      · simp [Fuzzer.next, hg, hng, activeWeight, hsame]
  · cases hc : f.command env with
    | error e =>
      right; right
      refine ⟨.inr (.inr ⟨f.game, none, e, by simp [Fuzzer.next, hg, hc]⟩), ?_⟩
      simp [Fuzzer.next, hg, hc]
    | ok cr =>
      cases cr with
      | userError m =>
        right; right
        refine ⟨.inr (.inl (by simp [Fuzzer.next, hg, hc])), ?_⟩
        simp [Fuzzer.next, hg, hc]
      | ok g =>
        cases hst : g.game.status with
        | finished =>
          right; left
          simp [Fuzzer.next, hg, hc, hst, activeWeight]
        | active wt =>
          right; right
          refine ⟨.inl (by simp [Fuzzer.next, hg, hc, hst]), ?_⟩
          simp [Fuzzer.next, hg, hc, hst, activeWeight]

/-- Replacing one element of a list shifts a weight sum by the weight
difference. -/
theorem sum_map_set (w : Fuzzer → Nat) (fs : List Fuzzer) (i : Nat) (f f' : Fuzzer)
    (h : fs[i]? = some f) :
    ((fs.set i f').map w).sum + w f = (fs.map w).sum + w f' := by
  induction fs generalizing i with
  | nil => simp at h
  | cons a rest ih =>
    cases i with
    | zero =>
      simp at h
      subst h
      simp [List.set]
      omega
    | succ n =>
      simp at h
      have := ih n h
      simp only [List.set, List.map_cons, List.sum_cons]
      omega

/-- Counting occupied slots equals summing the per-worker weights. -/
theorem activeCount_eq_sum (fs : List Fuzzer) :
    activeCount fs = (fs.map activeWeight).sum := by
  induction fs with
  | nil => rfl
  | cons f rest ih =>
    by_cases h : f.game.isSome = true <;>
      simp [activeCount, activeWeight, List.countP_cons, h] at * <;> omega

/-- Accounting invariant of any multi-worker run: `Created` steps plus
initially occupied Session slots balance `Finished` steps plus finally
occupied Session slots. -/
theorem multiRun_occupancy (sched : List (Nat × Env)) (fs : List Fuzzer) :
    createdCount (multiRun fs sched).1 + activeCount fs
      = finishedCount (multiRun fs sched).1 + activeCount (multiRun fs sched).2 := by
  induction sched generalizing fs with
  | nil => simp [multiRun, createdCount, finishedCount]
  | cons entry rest ih =>
    rcases entry with ⟨i, env⟩
    cases hfi : fs[i]? with
    | none => simpa [multiRun, hfi] using ih fs
    | some f =>
      rcases hnx : f.next env with ⟨step, f'⟩
      have hset := sum_map_set activeWeight fs i f f' hfi
      have hocc := next_step_occupancy f env
      rw [hnx] at hocc
      simp only at hocc
      have ihs := ih (fs.set i f')
      simp only [multiRun, hfi, hnx]
      simp only [activeCount_eq_sum] at ihs ⊢
      rcases hocc with ⟨h1, h2, h3⟩ | ⟨h1, h2, h3⟩ | ⟨h1, h2⟩
      · subst h1
        simp only [createdCount, finishedCount] at ihs ⊢
        simp [List.countP_cons] at ihs hset ⊢
        omega
      · subst h1
        simp only [createdCount, finishedCount] at ihs ⊢
        simp [List.countP_cons] at ihs hset ⊢
        omega
      · rcases h1 with h | h | ⟨g, c, e, h⟩ <;> subst h <;>
          simp only [createdCount, finishedCount] at ihs ⊢ <;>
          simp [List.countP_cons] at ihs hset ⊢ <;>
          omega

/-- On an error-free trace, the consuming loop consumes every step and its
tally counts the steps by kind. -/
theorem consume_counts (steps : List FuzzStep) (t : FuzzTally)
    (h : ∀ s ∈ steps, s.isErrorStep = false) :
    consume t steps
      = ({ started := t.started + createdCount steps,
           finished := t.finished + finishedCount steps,
           commands := t.commands + okCount steps + userErrorCount steps,
           invalid_input := t.invalid_input + userErrorCount steps }, false) := by
  induction steps generalizing t with
  | nil => simp [consume, createdCount, finishedCount, okCount, userErrorCount]
  | cons s rest ih =>
    have hrest : ∀ x ∈ rest, x.isErrorStep = false := fun x hx => h x (by simp [hx])
    cases s with
    | error g c e =>
      have := h (.error g c e) (by simp)
      simp [FuzzStep.isErrorStep] at this
    | created =>
      rw [show consume t (.created :: rest)
          = consume { t with started := t.started + 1 } rest from rfl, ih _ hrest]
      simp [createdCount, finishedCount, okCount, userErrorCount, List.countP_cons]
      omega
    | finished =>
      rw [show consume t (.finished :: rest)
          = consume { t with finished := t.finished + 1 } rest from rfl, ih _ hrest]
      simp [createdCount, finishedCount, okCount, userErrorCount, List.countP_cons]
      omega
    | commandOk =>
      rw [show consume t (.commandOk :: rest)
          = consume { t with commands := t.commands + 1 } rest from rfl, ih _ hrest]
      simp [createdCount, finishedCount, okCount, userErrorCount, List.countP_cons]
      omega
    | userError =>
      rw [show consume t (.userError :: rest)
          = consume { t with commands := t.commands + 1,
                             invalid_input := t.invalid_input + 1 } rest from rfl, ih _ hrest]
      simp [createdCount, finishedCount, okCount, userErrorCount, List.countP_cons]
      omega

/-- C5 counterexample: with two workers (the Orchestrator spawns one per
processing unit) each creating a game, the consumed trace gives
`started = 2`, `finished = 0` while a game is currently active, so
`started = finished + 1` fails; the claim as stated is false for
multi-worker runs. -/
theorem claim5_counterexample :
    ¬ ((consume FuzzTally.init
          (multiRun [demoFuzzerNoGame, demoFuzzerNoGame] demoSched2).1).1.commands
        = (consume FuzzTally.init
            (multiRun [demoFuzzerNoGame, demoFuzzerNoGame] demoSched2).1).1.invalid_input
          + okCount (multiRun [demoFuzzerNoGame, demoFuzzerNoGame] demoSched2).1 ∧
      (consume FuzzTally.init
          (multiRun [demoFuzzerNoGame, demoFuzzerNoGame] demoSched2).1).1.started
        = (consume FuzzTally.init
            (multiRun [demoFuzzerNoGame, demoFuzzerNoGame] demoSched2).1).1.finished
          + (if 0 < activeCount (multiRun [demoFuzzerNoGame, demoFuzzerNoGame] demoSched2).2
             then 1 else 0)) := by
  decide

/-- C5 (amended): for any multi-worker run whose consumed trace contains no
`Error` step, starting from workers with empty Session slots, the tally
satisfies `commands = invalid_input + CommandOk-count` and
`started = finished + (number of currently active games across workers)`. -/
theorem claim5_amended_tally_accounting (fs : List Fuzzer) (sched : List (Nat × Env))
    (hinit : ∀ f ∈ fs, f.game = none)
    (hnoerr : ∀ s ∈ (multiRun fs sched).1, s.isErrorStep = false) :
    (consume FuzzTally.init (multiRun fs sched).1).1.commands
        = (consume FuzzTally.init (multiRun fs sched).1).1.invalid_input
          + okCount (multiRun fs sched).1 ∧
    (consume FuzzTally.init (multiRun fs sched).1).1.started
        = (consume FuzzTally.init (multiRun fs sched).1).1.finished
          + activeCount (multiRun fs sched).2 := by
  have hc := consume_counts (multiRun fs sched).1 FuzzTally.init hnoerr
  have hocc := multiRun_occupancy sched fs
  have hzero : activeCount fs = 0 := by
    refine List.countP_eq_zero.mpr (fun f hf => ?_)
    simp [hinit f hf]
  rw [hc]
  simp only [FuzzTally.init]
  constructor <;> simp <;> omega

/-- C5 witness: a single worker creating a game and then playing one
successful command. -/
theorem claim5_witness :
    ((∀ f ∈ [demoFuzzerNoGame], f.game = none) ∧
      (∀ s ∈ (multiRun [demoFuzzerNoGame] demoSched1).1, s.isErrorStep = false)) ∧
    ((consume FuzzTally.init (multiRun [demoFuzzerNoGame] demoSched1).1).1.commands
        = (consume FuzzTally.init (multiRun [demoFuzzerNoGame] demoSched1).1).1.invalid_input
          + okCount (multiRun [demoFuzzerNoGame] demoSched1).1 ∧
      (consume FuzzTally.init (multiRun [demoFuzzerNoGame] demoSched1).1).1.started
        = (consume FuzzTally.init (multiRun [demoFuzzerNoGame] demoSched1).1).1.finished
          + activeCount (multiRun [demoFuzzerNoGame] demoSched1).2) :=
  ⟨⟨by decide, by decide⟩,
    claim5_amended_tally_accounting [demoFuzzerNoGame] demoSched1 (by decide) (by decide)⟩
